import Mathlib

/-!
Verification of the processing pipeline of src/camera_server.py.

The file shallowly embeds the stateful generator loop `generate_frames`
(lines 146-227), the status route `detection_status` (lines 236-244) and
the shared recency variable `bottle_last_seen` (lines 41-42).  One loop
iteration becomes the function `PiPlay.stepIter`, driven by an `Env`
record that supplies what the external collaborators (camera, YOLO
model, JPEG encoder, clock) do on that iteration; a whole run of the
loop is `PiPlay.runTraces`.  Timestamps and confidences are rationals.
-/

namespace PiPlay

/-- One detection, as extracted from a YOLO box in the drawing loop of
`generate_frames` (lines 185-190 of camera_server.py): the corner
coordinates `x1, y1, x2, y2` (already converted to int as on line 187),
the integer class id `cls` (line 189) and the confidence `conf`
(line 190, a float modelled as a rational). -/
structure Detection where
  x1 : Int
  y1 : Int
  x2 : Int
  y2 : Int
  cls : Nat
  conf : ℚ
deriving DecidableEq, Repr

/-- The boxes of one YOLO result (`results[0].boxes`, iterated at
line 185).  The cached `last_results` of `generate_frames` holds one of
these, or `none` before the first successful inference. -/
abbrev DetectionResult := List Detection

/-- One PIL drawing primitive, as invoked on `ImageDraw.Draw(img)`.
`rect` is `draw.rectangle(..., outline=..., width=...)` (line 201),
`text` is `draw.text(..., fill=...)` (line 202).  `fillRect` is the
filled rectangle primitive PIL offers for label backgrounds; it is part
of the operation vocabulary so that its absence from the renderer's
output is expressible. -/
inductive DrawOp where
  | rect (x1 y1 x2 y2 : Int) (outline : Nat × Nat × Nat) (width : Nat)
  | fillRect (x1 y1 x2 y2 : Int) (fill : Nat × Nat × Nat)
  | text (x y : Int) (s : String) (fill : Nat × Nat × Nat)
deriving DecidableEq, Repr

/-- Whether a drawing operation is a filled (background) rectangle. -/
def DrawOp.isFillRect : DrawOp → Bool
  | .fillRect _ _ _ _ _ => true
  | _ => false

/-- Round a rational to the nearest integer, ties to even: the rounding
used by Python's fixed-point float formatting `f"{conf:.2f}"`. -/
def roundHalfEven (q : ℚ) : Int :=
  let f : Int := ⌊q⌋
  if q - f < 1/2 then f
  else if 1/2 < q - f then f + 1
  else if f % 2 = 0 then f else f + 1

/-- Print `n` hundredths as a decimal string with two fractional
digits, e.g. `87 ↦ "0.87"`, `150 ↦ "1.50"`. -/
def twoDecString (n : Nat) : String :=
  toString (n / 100) ++ (".") ++ (if n % 100 < 10 then ("0") else ("")) ++ toString (n % 100)

/-- The value of Python's `f"{q:.2f}"`: the number rendered with
exactly two digits after the decimal point, rounding half to even. -/
def format2dp (q : ℚ) : String :=
  let n : Int := roundHalfEven (q * 100)
  if n < 0 then ("-") ++ twoDecString n.natAbs else twoDecString n.natAbs

/-- The label computed at lines 192-193:
`label_name = model.names.get(cls_id, str(cls_id))` followed by
`label = f"{label_name} {conf:.2f}"`.  `names` is the model's class-name
dictionary. -/
def labelOf (names : Nat → Option String) (d : Detection) : String :=
  ((names d.cls).getD (toString d.cls)) ++ (" ") ++ format2dp d.conf

/-- The drawing performed by the loop at lines 185-202 of
camera_server.py: for each box, one outline rectangle at the box
corners in green with width 2 (line 201) and one text at
`(x1 + 2, y1 + 2)` with the label, in green (line 202).  No other
primitive is invoked (in particular no filled background rectangle:
line 200's comment says "no fancy bg"). -/
def renderDetections (names : Nat → Option String) : DetectionResult → List DrawOp
  | [] => []
  | d :: ds =>
    DrawOp.rect d.x1 d.y1 d.x2 d.y2 (0, 255, 0) 2 ::
    DrawOp.text (d.x1 + 2) (d.y1 + 2) (labelOf names d) (0, 255, 0) ::
    renderDetections names ds

/-- The bottle test at line 196: `cls_id == bottle_class_id and
conf >= 0.5`.  The literal `0.5` is written `mkRat 1 2` (the reduced
rational with numerator 1 and denominator 2, proved equal to `1/2`
in `halfLit_eq` below) so that the test evaluates by kernel
reduction. -/
def qualifies (bottleClassId : Nat) (d : Detection) : Bool :=
  d.cls == bottleClassId && decide (mkRat 1 2 ≤ d.conf)

/-- What the external collaborators do during one iteration of the
`while True` loop: whether `picam2.capture_array()` (line 165) returns
a frame or raises; what `model(frame, ...)` (line 171) returns
(`none` = the call raises), consulted only on cadence frames; whether
`img.save(buf, format='JPEG')` (line 212) succeeds; the JPEG bytes it
produces; and the value of `time.time()` (line 207). -/
structure Env where
  captureOk : Bool
  inferResult : Option DetectionResult
  encodeOk : Bool
  jpeg : List Nat
  now : ℚ
deriving DecidableEq, Repr

/-- Byte strings (lists of byte values). -/
abbrev Bytes := List Nat

/-- The bytes of a string literal. -/
def strBytes (s : String) : Bytes := s.toList.map Char.toNat

/-- The multipart part yielded at lines 216-219:
`b'--frame\r\nContent-Type: image/jpeg\r\n\r\n' + jpg_bytes + b'\r\n'`. -/
def mkChunk (jpg : Bytes) : Bytes :=
  strBytes ("--frame\r\nContent-Type: image/jpeg\r\n\r\n") ++ jpg ++ strBytes ("\r\n")

/-- The per-session state of `generate_frames`: `frame_count`
(line 153) and `last_results` (line 154). -/
structure SessionState where
  frame_count : Nat
  last_results : Option DetectionResult
deriving DecidableEq, Repr

/-- The module-global shared state: `bottle_last_seen` (line 41),
guarded by `bottle_lock`. -/
structure SharedState where
  bottle_last_seen : ℚ
deriving DecidableEq, Repr

/-- `bottle_last_seen = 0.0` at line 41. -/
def sharedInit : SharedState := ⟨0⟩

/-- `frame_count = 0`, `last_results = None` at lines 153-154. -/
def sessionInit : SessionState := ⟨0, none⟩

/-- The cadence constant `N = 8` at line 168. `stepIter` keeps the
cadence as a parameter so that the cadence property can be stated for
every `N ≥ 1`; the program instantiates it with this value. -/
def sourceN : Nat := 8

/-- Everything one iteration of the loop body did.  `pre` is the
session state when the iteration started, `sess`/`shared` the states
when it ended.  `inferCalled` records whether `model(frame, ...)` was
invoked; `renderedWith = some c` records that the drawing stage was
reached with `last_results = c` (so the frame was annotated with
`renderDetections` of `c`, or with nothing when `c = none`);
`wrote = some t` records the assignment `bottle_last_seen = t` at
line 207; `chunk` is the yielded multipart part, if any; `slept` is
the `time.sleep` argument ending the iteration (0.03 at line 222 on
success, 0.5 at line 227 after a caught exception). -/
structure IterTrace where
  pre : SessionState
  sess : SessionState
  shared : SharedState
  inferCalled : Bool
  renderedWith : Option (Option DetectionResult)
  wrote : Option ℚ
  chunk : Option Bytes
  slept : ℚ
deriving DecidableEq, Repr

/-- The tail of a loop iteration, after capture succeeded and the
inference stage did not raise: the cache now holds `cache`,
`frame_count` is incremented (line 173), the frame is annotated from
`cache` (lines 176-202), `bottle_last_seen` is updated iff the drawn
list has a qualifying detection (lines 195-207, executed before
encoding), and the chunk is yielded iff JPEG encoding succeeds
(lines 211-219). -/
def afterInfer (b : Nat) (env : Env) (pre : SessionState)
    (cache : Option DetectionResult) (shared : SharedState)
    (inferCalled : Bool) : IterTrace :=
  ⟨pre, ⟨pre.frame_count + 1, cache⟩,
   if (cache.getD []).any (qualifies b) then ⟨env.now⟩ else shared,
   inferCalled, some cache,
   if (cache.getD []).any (qualifies b) then some env.now else none,
   if env.encodeOk then some (mkChunk env.jpeg) else none,
   if env.encodeOk then mkRat 3 100 else mkRat 1 2⟩

/-- One iteration of the `while True` loop of `generate_frames`
(lines 162-227).  Any exception in the body is caught by the
`except` at line 224, which logs and sleeps 0.5 s: such an iteration
yields nothing and leaves both states as they were when it began.
On a successful capture, inference runs iff `frame_count % N == 0`
(lines 168-172, replacing the cache); afterwards the iteration
proceeds as `afterInfer`. -/
def stepIter (N b : Nat) (env : Env) (sess : SessionState)
    (shared : SharedState) : IterTrace :=
  if env.captureOk then
    if sess.frame_count % N = 0 then
      match env.inferResult with
      | some r => afterInfer b env sess (some r) shared true
      | none => ⟨sess, sess, shared, true, none, none, none, mkRat 1 2⟩
    else
      afterInfer b env sess sess.last_results shared false
  else
    ⟨sess, sess, shared, false, none, none, none, mkRat 1 2⟩

/-- The traces of successive loop iterations, threading the session
and shared state. -/
def runTraces (N b : Nat) : List Env → SessionState → SharedState → List IterTrace
  | [], _, _ => []
  | e :: es, sess, shared =>
    stepIter N b e sess shared ::
      runTraces N b es (stepIter N b e sess shared).sess (stepIter N b e sess shared).shared

/-- The shared state after running the loop over `envs`. -/
def runShared (N b : Nat) : List Env → SessionState → SharedState → SharedState
  | [], _, sh => sh
  | e :: es, sess, sh =>
    runShared N b es (stepIter N b e sess sh).sess (stepIter N b e sess sh).shared

/-- The body of the `/detection_status` route (lines 236-244): read
`bottle_last_seen` under the lock, compute `age = time.time() - last`,
and answer `age < 1.5` (the window literal `1.5` is `mkRat 3 2`,
proved equal to `3/2` in `windowLit_eq` below).  The shared state is returned unchanged, the
route only reads it. -/
def detection_status (now : ℚ) (shared : SharedState) : Bool × SharedState :=
  let last := shared.bottle_last_seen
  let age := now - last
  (decide (age < mkRat 3 2), shared)

/-- The whole server state visible to a status query: the shared
recency variable plus the per-client session states of the streaming
generators. -/
structure ServerState where
  shared : SharedState
  sessions : List SessionState
deriving DecidableEq, Repr

/-- The `/detection_status` route acting on the whole server state:
it consults only the shared recency variable. -/
def statusRoute (now : ℚ) (st : ServerState) : Bool × ServerState :=
  ((detection_status now st.shared).1, ⟨(detection_status now st.shared).2, st.sessions⟩)

/-- An iteration on which every external step succeeds: capture
returns a frame, inference (if invoked) returns a result, encoding
succeeds. -/
def envOk (e : Env) : Bool :=
  e.captureOk && e.inferResult.isSome && e.encodeOk

/-- The conjunction verified for claim C1, about a stretch of
consecutive successfully processed frames of one session starting at
counter value `k` with cache `c`: exactly one iteration invokes the
model; an iteration invokes it precisely when its counter is divisible
by the cadence; every other iteration draws exactly the cached
result and leaves the cache untouched; and when the stretch starts at
a cadence boundary, every later frame of the stretch is drawn with
the very result the first frame cached. -/
def CadenceProp (N b : Nat) (envs : List Env) (k : Nat)
    (c : Option DetectionResult) (sh : SharedState) : Prop :=
  (∃! i : Fin (runTraces N b envs ⟨k, c⟩ sh).length,
     ((runTraces N b envs ⟨k, c⟩ sh).get i).inferCalled = true) ∧
  (∀ i : Fin (runTraces N b envs ⟨k, c⟩ sh).length,
     (((runTraces N b envs ⟨k, c⟩ sh).get i).inferCalled = true ↔
       ((runTraces N b envs ⟨k, c⟩ sh).get i).pre.frame_count % N = 0)) ∧
  (∀ i : Fin (runTraces N b envs ⟨k, c⟩ sh).length,
     ((runTraces N b envs ⟨k, c⟩ sh).get i).inferCalled = false →
       ((runTraces N b envs ⟨k, c⟩ sh).get i).renderedWith =
         some ((runTraces N b envs ⟨k, c⟩ sh).get i).pre.last_results ∧
       ((runTraces N b envs ⟨k, c⟩ sh).get i).sess.last_results =
         ((runTraces N b envs ⟨k, c⟩ sh).get i).pre.last_results) ∧
  (k % N = 0 → ∀ hd tl, runTraces N b envs ⟨k, c⟩ sh = hd :: tl →
     ∀ t ∈ tl, t.renderedWith = some hd.sess.last_results)

/-- The conjunction verified for claim C2 (amended): after any run of
the loop, if some qualifying detection was recorded then the status
query at time `now` answers `true` iff one of the recorded timestamps
`t` satisfies `now - t < 1.5`; and if none was ever recorded, every
query at a time `now ≥ 1.5` answers `false`. -/
def StatusWindowProp (N b : Nat) (envs : List Env) (now : ℚ) : Prop :=
  ((runTraces N b envs sessionInit sharedInit).filterMap IterTrace.wrote ≠ [] →
    ((detection_status now (runShared N b envs sessionInit sharedInit)).1 = true ↔
      ∃ t ∈ (runTraces N b envs sessionInit sharedInit).filterMap IterTrace.wrote,
        now - t < 3/2)) ∧
  ((runTraces N b envs sessionInit sharedInit).filterMap IterTrace.wrote = [] →
    3/2 ≤ now →
    (detection_status now (runShared N b envs sessionInit sharedInit)).1 = false)

/-- The conjunction verified for claim C3 (amended): an iteration whose
inference raises yields no chunk, draws nothing, sleeps the 0.5 s
backoff and leaves both states untouched; the session keeps going, and
a next fully successful iteration both emits its chunk and re-invokes
inference (the cadence position was not consumed). -/
def InferFailContinueProp (N b : Nat) (e e2 : Env) (s : SessionState)
    (sh : SharedState) : Prop :=
  stepIter N b e s sh = ⟨s, s, sh, true, none, none, none, mkRat 1 2⟩ ∧
  (stepIter N b e2 s sh).chunk = some (mkChunk e2.jpeg) ∧
  (stepIter N b e2 s sh).inferCalled = true

/-- The shape verified for claim C4: a yielded chunk is the boundary
and JPEG headers, the encoder's bytes, and a trailing CRLF; it is
never the terminating boundary `--frame--`. -/
def ChunkShape (c : Bytes) : Prop :=
  (∃ jpg, c = strBytes ("--frame\r\nContent-Type: image/jpeg\r\n\r\n") ++ jpg
      ++ strBytes ("\r\n")) ∧
  c ≠ strBytes ("--frame--\r\n")

/-- The conjunction verified for claim C5 (amended): for each cached
detection the renderer emits its bounding-box rectangle and its label
text `"{name} {conf:.2f}"` at `(x1 + 2, y1 + 2)`, and it never emits a
filled (label background) rectangle. -/
def RenderOpsProp (names : Nat → Option String) (dets : DetectionResult) : Prop :=
  ∀ d ∈ dets,
    DrawOp.rect d.x1 d.y1 d.x2 d.y2 (0, 255, 0) 2 ∈ renderDetections names dets ∧
    DrawOp.text (d.x1 + 2) (d.y1 + 2) (labelOf names d) (0, 255, 0) ∈
      renderDetections names dets ∧
    ∀ op ∈ renderDetections names dets, op.isFillRect = false

/-- The conjunction verified for claim C6: an iteration whose capture
raises yields no chunk, sleeps the 0.5 s backoff and leaves both
states untouched, and a next fully successful iteration emits its
chunk as usual. -/
def CaptureFailContinueProp (N b : Nat) (e e2 : Env) (s : SessionState)
    (sh : SharedState) : Prop :=
  stepIter N b e s sh = ⟨s, s, sh, false, none, none, none, mkRat 1 2⟩ ∧
  (stepIter N b e2 s sh).chunk = some (mkChunk e2.jpeg)

/-- The conjunction verified for claim C7: an iteration that reaches
the drawing stage writes `bottle_last_seen := time.time()` exactly
when the drawn detection list holds a detection of the watched class
with confidence at least 0.5, and leaves the shared state untouched
otherwise. -/
def WriteIffProp (N b : Nat) (e : Env) (s : SessionState) (sh : SharedState) : Prop :=
  ∃ c : Option DetectionResult,
    (stepIter N b e s sh).renderedWith = some c ∧
    ((∃ d ∈ c.getD [], d.cls = b ∧ mkRat 1 2 ≤ d.conf) →
      (stepIter N b e s sh).wrote = some e.now ∧
      (stepIter N b e s sh).shared = ⟨e.now⟩) ∧
    ((¬ ∃ d ∈ c.getD [], d.cls = b ∧ mkRat 1 2 ≤ d.conf) →
      (stepIter N b e s sh).wrote = none ∧
      (stepIter N b e s sh).shared = sh)

/-- The conjunction verified for claim C10 (amended), separating the
three failure stages of one iteration: a capture failure and an
inference failure leave both states untouched and yield nothing (so a
failed cadence frame is retried by the very next iteration), while an
encoding failure still yields nothing but keeps the already performed
counter increment and the cache the drawing stage used — the result
the cadence frame's inference just stored, or the previously cached
one on a non-cadence frame. -/
def ErrorCasesProp (N b : Nat) (e : Env) (s : SessionState) (sh : SharedState) : Prop :=
  (e.captureOk = false →
     stepIter N b e s sh = ⟨s, s, sh, false, none, none, none, mkRat 1 2⟩) ∧
  (e.captureOk = true → s.frame_count % N = 0 → e.inferResult = none →
     stepIter N b e s sh = ⟨s, s, sh, true, none, none, none, mkRat 1 2⟩ ∧
     ∀ e2 : Env, envOk e2 = true →
       (stepIter N b e2 s sh).inferCalled = true) ∧
  (e.captureOk = true → e.encodeOk = false →
     (stepIter N b e s sh).chunk = none ∧
     ((s.frame_count % N = 0 → e.inferResult.isSome = true) →
        (stepIter N b e s sh).sess.frame_count = s.frame_count + 1 ∧
        (∀ r, s.frame_count % N = 0 → e.inferResult = some r →
           (stepIter N b e s sh).sess.last_results = some r) ∧
        (¬ s.frame_count % N = 0 →
           (stepIter N b e s sh).sess.last_results = s.last_results)))

/-- A bottle detection (COCO class id 39) with confidence 0.87, used
as concrete witness data. -/
def exDet : Detection := ⟨10, 20, 110, 220, 39, mkRat 87 100⟩

/-- A non-bottle detection (class id 0) with confidence 0.75. -/
def exOther : Detection := ⟨0, 0, 5, 5, 0, mkRat 3 4⟩

/-- A fully successful iteration environment: one bottle detection,
JPEG bytes `[1, 2, 3]`, clock at 10. -/
def exEnvOk : Env := ⟨true, some [exDet], true, [1, 2, 3], 10⟩

/-- A successful iteration environment with no detections at all,
clock at 4. -/
def exEnvEmpty : Env := ⟨true, some [], true, [7], 4⟩

/-- An iteration environment whose inference raises. -/
def exEnvInferFail : Env := ⟨true, none, true, [9], 4⟩

/-- An iteration environment whose capture raises. -/
def exEnvCaptureFail : Env := ⟨false, some [exDet], true, [9], 4⟩

/-- An iteration environment whose JPEG encoding raises. -/
def exEnvEncodeFail : Env := ⟨true, some [exOther], false, [9], 4⟩

/-- Eight consecutive fully successful iteration environments, one
cadence period of the program's `N = 8`. -/
def c1Envs : List Env := List.replicate 8 exEnvOk

/-- The confidence bound written `mkRat 1 2` is the source's `0.5`. -/
theorem halfLit_eq : mkRat 1 2 = 1/2 := by
  norm_num [Rat.mkRat_eq_divInt, Rat.divInt_eq_div]

/-- The recency window written `mkRat 3 2` is the source's `1.5`. -/
theorem windowLit_eq : mkRat 3 2 = 3/2 := by
  norm_num [Rat.mkRat_eq_divInt, Rat.divInt_eq_div]

/-- The pacing delay written `mkRat 3 100` is the source's `0.03`. -/
theorem paceLit_eq : mkRat 3 100 = 3/100 := by
  norm_num [Rat.mkRat_eq_divInt, Rat.divInt_eq_div]

theorem envOk_parts {e : Env} (h : envOk e = true) :
    e.captureOk = true ∧ (∃ r, e.inferResult = some r) ∧ e.encodeOk = true := by
  unfold envOk at h
  simp only [Bool.and_eq_true, Option.isSome_iff_exists] at h
  exact ⟨h.1.1, h.1.2, h.2⟩

theorem stepIter_capture_fail {N b : Nat} {e : Env} {s : SessionState}
    {sh : SharedState} (h : e.captureOk = false) :
    stepIter N b e s sh = ⟨s, s, sh, false, none, none, none, mkRat 1 2⟩ := by
  simp [stepIter, h]

theorem stepIter_infer_fail {N b : Nat} {e : Env} {s : SessionState}
    {sh : SharedState} (hc : e.captureOk = true)
    (hm : s.frame_count % N = 0) (hr : e.inferResult = none) :
    stepIter N b e s sh = ⟨s, s, sh, true, none, none, none, mkRat 1 2⟩ := by
  simp [stepIter, hc, hm, hr]

theorem stepIter_infer_ok {N b : Nat} {e : Env} {s : SessionState}
    {sh : SharedState} {r : DetectionResult} (hc : e.captureOk = true)
    (hm : s.frame_count % N = 0) (hr : e.inferResult = some r) :
    stepIter N b e s sh = afterInfer b e s (some r) sh true := by
  simp [stepIter, hc, hm, hr]

theorem stepIter_no_infer {N b : Nat} {e : Env} {s : SessionState}
    {sh : SharedState} (hc : e.captureOk = true)
    (hm : ¬ s.frame_count % N = 0) :
    stepIter N b e s sh = afterInfer b e s s.last_results sh false := by
  simp [stepIter, hc, hm]

theorem stepIter_ok_count {N b : Nat} {e : Env} {s : SessionState}
    {sh : SharedState} (h : envOk e = true) :
    (stepIter N b e s sh).sess.frame_count = s.frame_count + 1 := by
  obtain ⟨hc, ⟨r, hr⟩, -⟩ := envOk_parts h
  by_cases hm : s.frame_count % N = 0
  · rw [stepIter_infer_ok hc hm hr]; rfl
  · rw [stepIter_no_infer hc hm]; rfl

theorem stepIter_ok_chunk {N b : Nat} {e : Env} {s : SessionState}
    {sh : SharedState} (h : envOk e = true) :
    (stepIter N b e s sh).chunk = some (mkChunk e.jpeg) := by
  obtain ⟨hc, ⟨r, hr⟩, he⟩ := envOk_parts h
  by_cases hm : s.frame_count % N = 0
  · rw [stepIter_infer_ok hc hm hr]; simp [afterInfer, he]
  · rw [stepIter_no_infer hc hm]; simp [afterInfer, he]

theorem runTraces_length (N b : Nat) (envs : List Env) (s : SessionState)
    (sh : SharedState) : (runTraces N b envs s sh).length = envs.length := by
  induction envs generalizing s sh with
  | nil => rfl
  | cons e es ih => simp [runTraces, ih]

theorem runTraces_ok_get (N b : Nat) (envs : List Env) :
    (∀ e ∈ envs, envOk e = true) →
    ∀ (s : SessionState) (sh : SharedState)
      (i : Fin (runTraces N b envs s sh).length),
      ((runTraces N b envs s sh).get i).pre.frame_count = s.frame_count + i.val ∧
      ((runTraces N b envs s sh).get i).inferCalled =
        decide ((s.frame_count + i.val) % N = 0) ∧
      (((runTraces N b envs s sh).get i).inferCalled = false →
        ((runTraces N b envs s sh).get i).renderedWith =
          some ((runTraces N b envs s sh).get i).pre.last_results ∧
        ((runTraces N b envs s sh).get i).sess.last_results =
          ((runTraces N b envs s sh).get i).pre.last_results) := by
  induction envs with
  | nil =>
    intro _ s sh i
    exact absurd i.isLt (by simp [runTraces])
  | cons e es ih =>
    intro hok s sh i
    have he : envOk e = true := hok e (List.mem_cons_self e es)
    have hes : ∀ x ∈ es, envOk x = true := fun x hx => hok x (List.mem_cons_of_mem e hx)
    obtain ⟨hc, ⟨r, hr⟩, henc⟩ := envOk_parts he
    rcases i with ⟨iv, hiv⟩
    cases iv with
    | zero =>
      simp only [runTraces, List.get]
      by_cases hm : s.frame_count % N = 0
      · rw [stepIter_infer_ok hc hm hr]
        refine ⟨rfl, ?_, ?_⟩
        · simp [afterInfer, hm]
        · intro hfalse
          simp [afterInfer] at hfalse
      · rw [stepIter_no_infer hc hm]
        refine ⟨rfl, ?_, ?_⟩
        · simp [afterInfer, hm]
        · intro _
          exact ⟨rfl, rfl⟩
    | succ j =>
      have hj : j < (runTraces N b es (stepIter N b e s sh).sess
          (stepIter N b e s sh).shared).length := by
        have := hiv
        simp only [runTraces, List.length_cons] at this
        omega
      have hstep : ((runTraces N b (e :: es) s sh).get ⟨j + 1, hiv⟩) =
          ((runTraces N b es (stepIter N b e s sh).sess
            (stepIter N b e s sh).shared).get ⟨j, hj⟩) := by
        simp only [runTraces, List.get]
      rw [hstep]
      obtain ⟨h1, h2, h3⟩ := ih hes (stepIter N b e s sh).sess
        (stepIter N b e s sh).shared ⟨j, hj⟩
      have hcount : (stepIter N b e s sh).sess.frame_count = s.frame_count + 1 :=
        stepIter_ok_count he
      refine ⟨?_, ?_, h3⟩
      · rw [h1, hcount]
        simp only [Fin.val_mk]
        omega
      · rw [h2, hcount]
        simp only [Fin.val_mk]
        have harith : s.frame_count + 1 + j = s.frame_count + (j + 1) := by omega
        rw [harith]

theorem runTraces_no_infer (N b : Nat) (envs : List Env) :
    ∀ (s : SessionState) (sh : SharedState),
      (∀ e ∈ envs, envOk e = true) →
      (∀ j, j < envs.length → ¬ (s.frame_count + j) % N = 0) →
      ∀ t ∈ runTraces N b envs s sh,
        t.renderedWith = some s.last_results ∧
        t.sess.last_results = s.last_results := by
  induction envs with
  | nil =>
    intro s sh _ _ t ht
    simp [runTraces] at ht
  | cons e es ih =>
    intro s sh hok hni t ht
    have he : envOk e = true := hok e (List.mem_cons_self e es)
    have hes : ∀ x ∈ es, envOk x = true := fun x hx => hok x (List.mem_cons_of_mem e hx)
    obtain ⟨hc, ⟨r, hr⟩, henc⟩ := envOk_parts he
    have hm : ¬ s.frame_count % N = 0 := by
      have := hni 0 (by simp)
      simpa using this
    have hstep : stepIter N b e s sh = afterInfer b e s s.last_results sh false :=
      stepIter_no_infer hc hm
    simp only [runTraces, List.mem_cons] at ht
    rcases ht with rfl | ht
    · rw [hstep]
      exact ⟨rfl, rfl⟩
    · have hsess : (stepIter N b e s sh).sess =
          ⟨s.frame_count + 1, s.last_results⟩ := by
        rw [hstep]; rfl
      have hni2 : ∀ j, j < es.length →
          ¬ ((stepIter N b e s sh).sess.frame_count + j) % N = 0 := by
        intro j hjlen
        rw [hsess]
        have := hni (j + 1) (by simp; omega)
        have harith : s.frame_count + 1 + j = s.frame_count + (j + 1) := by omega
        rw [harith]
        exact this
      have := ih (stepIter N b e s sh).sess (stepIter N b e s sh).shared hes hni2 t ht
      rw [hsess] at this
      exact this

theorem offset_mod_facts (N k : Nat) (hN : 0 < N) :
    (k + (N - k % N) % N) % N = 0 ∧ (N - k % N) % N < N ∧
    ∀ i j, i < N → j < N → (k + i) % N = 0 → (k + j) % N = 0 → i = j := by
  refine ⟨?_, Nat.mod_lt _ hN, ?_⟩
  · by_cases hk : k % N = 0
    · rw [hk, Nat.sub_zero, Nat.mod_self, Nat.add_zero]
      exact hk
    · have h1 : k % N < N := Nat.mod_lt _ hN
      have h2 : (N - k % N) % N = N - k % N := Nat.mod_eq_of_lt (by omega)
      rw [h2]
      have hdm : N * (k / N) + k % N = k := Nat.div_add_mod k N
      have h3 : k + (N - k % N) = N * (k / N) + N := by omega
      rw [h3]
      have h4 : N * (k / N) + N = N * (k / N + 1) := by ring
      rw [h4]
      exact Nat.mul_mod_right N _
  · intro i j hi hj hik hjk
    have hmod : (k + i) % N = (k + j) % N := by rw [hik, hjk]
    have hij : i % N = j % N := Nat.ModEq.add_left_cancel' k hmod
    rwa [Nat.mod_eq_of_lt hi, Nat.mod_eq_of_lt hj] at hij

/-- C1: for every cadence value N ≥ 1 (the program uses N = 8), across
any N consecutive successfully processed frames of one streaming
session, exactly one inference call occurs — on the frame whose
session counter is divisible by N — and every other frame is rendered
with the cached DetectionResult object unchanged (and, when the
stretch starts at a cadence boundary, all of its later frames are
rendered with exactly the result that its first frame cached). -/
theorem c1_cadence (N b : Nat) (hN : 1 ≤ N) (envs : List Env)
    (hlen : envs.length = N) (hok : ∀ e ∈ envs, envOk e = true)
    (k : Nat) (c : Option DetectionResult) (sh : SharedState) :
    CadenceProp N b envs k c sh := by
  have hNpos : 0 < N := hN
  have hlen2 : (runTraces N b envs ⟨k, c⟩ sh).length = N := by
    rw [runTraces_length, hlen]
  obtain ⟨hex, hlt, huniq⟩ := offset_mod_facts N k hNpos
  have hget := runTraces_ok_get N b envs hok ⟨k, c⟩ sh
  refine ⟨?_, ?_, ?_, ?_⟩
  · refine ⟨⟨(N - k % N) % N, by rw [hlen2]; exact hlt⟩, ?_, ?_⟩
    · obtain ⟨-, h2, -⟩ := hget ⟨(N - k % N) % N, by rw [hlen2]; exact hlt⟩
      rw [h2]
      simp only [Fin.val_mk]
      simpa using hex
    · intro y hy
      obtain ⟨-, h2, -⟩ := hget y
      rw [h2] at hy
      have hy2 : (k + y.val) % N = 0 := by simpa using hy
      have hylt : y.val < N := lt_of_lt_of_eq y.isLt hlen2
      apply Fin.ext
      simp only [Fin.val_mk]
      exact huniq y.val ((N - k % N) % N) hylt hlt hy2 hex
  · intro i
    obtain ⟨h1, h2, -⟩ := hget i
    rw [h1, h2]
    simp
  · intro i hni
    obtain ⟨h1, -, h3⟩ := hget i
    exact h3 hni
  · intro hk hd tl heq t ht
    cases envs with
    | nil => simp [runTraces] at heq
    | cons e es =>
      have he : envOk e = true := hok e (List.mem_cons_self e es)
      have hes : ∀ x ∈ es, envOk x = true :=
        fun x hx => hok x (List.mem_cons_of_mem e hx)
      simp only [runTraces, List.cons.injEq] at heq
      obtain ⟨hhd, htl⟩ := heq
      have hcount : (stepIter N b e ⟨k, c⟩ sh).sess.frame_count = k + 1 :=
        stepIter_ok_count he
      have hni2 : ∀ j, j < es.length →
          ¬ ((stepIter N b e ⟨k, c⟩ sh).sess.frame_count + j) % N = 0 := by
        intro j hjlen
        rw [hcount]
        have hjN : j + 1 < N := by
          have : es.length = N - 1 := by
            simpa [Nat.succ_eq_add_one] using congrArg (· - 1) hlen
          omega
        have hdm : N * (k / N) + k % N = k := Nat.div_add_mod k N
        have hkmul : k = N * (k / N) := by omega
        have harith : k + 1 + j = N * (k / N) + (1 + j) := by omega
        rw [harith, Nat.mul_add_mod]
        have : (1 + j) % N = 1 + j := Nat.mod_eq_of_lt (by omega)
        rw [this]
        omega
      have hmem := runTraces_no_infer N b es (stepIter N b e ⟨k, c⟩ sh).sess
        (stepIter N b e ⟨k, c⟩ sh).shared hes hni2 t (htl ▸ ht)
      have hcache : (stepIter N b e ⟨k, c⟩ sh).sess.last_results =
          hd.sess.last_results := by rw [hhd]
      rw [← hcache]
      exact hmem.1

/-- Witness for C1: the cadence property holds for one full period of
eight successful frames at the program's cadence N = 8, starting a
fresh session. -/
theorem c1_witness :
    (1 ≤ 8 ∧ c1Envs.length = 8 ∧ ∀ e ∈ c1Envs, envOk e = true) ∧
    CadenceProp 8 39 c1Envs 0 none sharedInit :=
  ⟨⟨by decide, by decide, by decide⟩,
    c1_cadence 8 39 (by decide) c1Envs (by decide) (by decide) 0 none sharedInit⟩

theorem stepIter_wrote_cases (N b : Nat) (e : Env) (s : SessionState)
    (sh : SharedState) :
    (stepIter N b e s sh).wrote = none ∨
    (stepIter N b e s sh).wrote = some e.now := by
  by_cases hc : e.captureOk = true
  · by_cases hm : s.frame_count % N = 0
    · cases hr : e.inferResult with
      | none => left; rw [stepIter_infer_fail hc hm hr]
      | some r =>
        rw [stepIter_infer_ok hc hm hr]
        by_cases hq : (r.any (qualifies b)) = true <;>
          simp [afterInfer, hq]
    · rw [stepIter_no_infer hc hm]
      by_cases hq : ((s.last_results.getD []).any (qualifies b)) = true <;>
        simp [afterInfer, hq]
  · left
    rw [stepIter_capture_fail (by simpa using hc)]

theorem stepIter_shared_of_wrote_none (N b : Nat) (e : Env) (s : SessionState)
    (sh : SharedState) (h : (stepIter N b e s sh).wrote = none) :
    (stepIter N b e s sh).shared = sh := by
  by_cases hc : e.captureOk = true
  · by_cases hm : s.frame_count % N = 0
    · cases hr : e.inferResult with
      | none => rw [stepIter_infer_fail hc hm hr]
      | some r =>
        rw [stepIter_infer_ok hc hm hr] at h ⊢
        by_cases hq : (r.any (qualifies b)) = true
        · simp [afterInfer, hq] at h
        · simp [afterInfer, hq]
    · rw [stepIter_no_infer hc hm] at h ⊢
      by_cases hq : ((s.last_results.getD []).any (qualifies b)) = true
      · simp [afterInfer, hq] at h
      · simp [afterInfer, hq]
  · rw [stepIter_capture_fail (by simpa using hc)]

theorem stepIter_shared_of_wrote_some (N b : Nat) (e : Env) (s : SessionState)
    (sh : SharedState) (x : ℚ) (h : (stepIter N b e s sh).wrote = some x) :
    (stepIter N b e s sh).shared = ⟨x⟩ := by
  by_cases hc : e.captureOk = true
  · by_cases hm : s.frame_count % N = 0
    · cases hr : e.inferResult with
      | none => rw [stepIter_infer_fail hc hm hr] at h; simp at h
      | some r =>
        rw [stepIter_infer_ok hc hm hr] at h ⊢
        by_cases hq : (r.any (qualifies b)) = true
        · simp [afterInfer, hq] at h ⊢
          exact h
        · simp [afterInfer, hq] at h
    · rw [stepIter_no_infer hc hm] at h ⊢
      by_cases hq : ((s.last_results.getD []).any (qualifies b)) = true
      · simp [afterInfer, hq] at h ⊢
        exact h
      · simp [afterInfer, hq] at h
  · rw [stepIter_capture_fail (by simpa using hc)] at h
    simp at h

theorem writes_sublist (N b : Nat) (envs : List Env) :
    ∀ (s : SessionState) (sh : SharedState),
      List.Sublist ((runTraces N b envs s sh).filterMap IterTrace.wrote)
        (envs.map Env.now) := by
  induction envs with
  | nil => intro s sh; simp [runTraces]
  | cons e es ih =>
    intro s sh
    rcases stepIter_wrote_cases N b e s sh with h | h
    · rw [List.map_cons]
      simp only [runTraces, List.filterMap_cons, h]
      exact (ih _ _).cons e.now
    · rw [List.map_cons]
      simp only [runTraces, List.filterMap_cons, h]
      exact (ih _ _).cons₂ e.now

theorem runShared_eq (N b : Nat) (envs : List Env) :
    ∀ (s : SessionState) (sh : SharedState),
      runShared N b envs s sh =
        ⟨((runTraces N b envs s sh).filterMap IterTrace.wrote).getLastD
          sh.bottle_last_seen⟩ := by
  induction envs with
  | nil => intro s sh; simp [runShared, runTraces]
  | cons e es ih =>
    intro s sh
    rcases stepIter_wrote_cases N b e s sh with h | h
    · have hsh : (stepIter N b e s sh).shared = sh :=
        stepIter_shared_of_wrote_none N b e s sh h
      simp only [runShared, runTraces, List.filterMap_cons, h]
      rw [ih, hsh]
    · have hsh : (stepIter N b e s sh).shared = ⟨e.now⟩ :=
        stepIter_shared_of_wrote_some N b e s sh e.now h
      simp only [runShared, runTraces, List.filterMap_cons, h]
      rw [ih, hsh, List.getLastD_cons]

theorem sorted_le_getLastD : ∀ (l : List ℚ) (d a : ℚ),
    l.Sorted (· ≤ ·) → a ∈ l → a ≤ l.getLastD d := by
  intro l
  induction l with
  | nil => intro d a _ ha; cases ha
  | cons x t ih =>
    intro d a hs ha
    rw [List.getLastD_cons]
    obtain ⟨hx, ht⟩ := List.sorted_cons.1 hs
    rcases List.mem_cons.1 ha with rfl | hat
    · cases t with
      | nil => simp [List.getLastD]
      | cons y u =>
        have hy : a ≤ y := hx y (List.mem_cons_self y u)
        have := ih a y ht (List.mem_cons_self y u)
        exact le_trans hy this
    · exact ih x a ht hat

theorem getLastD_mem : ∀ (l : List ℚ) (d : ℚ), l ≠ [] → l.getLastD d ∈ l := by
  intro l
  induction l with
  | nil => intro d h; exact absurd rfl h
  | cons x t ih =>
    intro d _
    rw [List.getLastD_cons]
    cases t with
    | nil => simp [List.getLastD]
    | cons y u =>
      exact List.mem_cons_of_mem x (ih x (by simp))

/-- C2 (amended): after any run of the loop with a non-decreasing
clock, the status query at time `now` answers `true` iff some recorded
qualifying detection timestamp `t` satisfies `now - t < 1.5`, provided
at least one was ever recorded; when none was ever recorded, every
query at a time `now ≥ 1.5` answers `false` (the original claim fails
only for `now < 1.5` against the never-seen sentinel 0.0, see the
counterexample). -/
theorem c2_status_window (N b : Nat) (envs : List Env) (now : ℚ)
    (hmono : (envs.map Env.now).Sorted (· ≤ ·)) :
    StatusWindowProp N b envs now := by
  have hrs := runShared_eq N b envs sessionInit sharedInit
  have hsub := writes_sublist N b envs sessionInit sharedInit
  have hsorted : ((runTraces N b envs sessionInit sharedInit).filterMap
      IterTrace.wrote).Sorted (· ≤ ·) := List.Pairwise.sublist hsub hmono
  constructor
  · intro hne
    rw [hrs]
    have hzero : sharedInit.bottle_last_seen = 0 := rfl
    rw [hzero]
    set w := (runTraces N b envs sessionInit sharedInit).filterMap IterTrace.wrote
      with hw
    have hlast_mem : w.getLastD 0 ∈ w := getLastD_mem w 0 hne
    constructor
    · intro hactive
      refine ⟨w.getLastD 0, hlast_mem, ?_⟩
      have := of_decide_eq_true hactive
      rwa [windowLit_eq] at this
    · rintro ⟨t, htmem, htlt⟩
      have hle : t ≤ w.getLastD 0 := sorted_le_getLastD w 0 t hsorted htmem
      have : now - w.getLastD 0 < 3/2 := by
        have : now - w.getLastD 0 ≤ now - t := by linarith
        linarith
      simp only [detection_status, windowLit_eq]
      exact decide_eq_true this
  · intro hempty hnow
    rw [hrs, hempty]
    have hzero : sharedInit.bottle_last_seen = 0 := rfl
    rw [List.getLastD_nil, hzero]
    simp only [detection_status, windowLit_eq]
    have : ¬ (now - 0 < 3/2) := by
      rw [sub_zero]
      linarith
    exact decide_eq_false this

/-- Counterexample to C2 as stated: with no qualifying detection ever
recorded (one frame was processed, the model saw nothing), a status
query at time `now = 1` still answers `true`, because the never-seen
state is the sentinel timestamp 0.0 and `1 - 0 < 1.5`; the claim
demands `false` for every query before the first detection. -/
theorem c2_counterexample :
    (runTraces 8 39 [exEnvEmpty] sessionInit sharedInit).filterMap
      IterTrace.wrote = [] ∧
    (detection_status 1 (runShared 8 39 [exEnvEmpty] sessionInit
      sharedInit)).1 = true := by
  constructor
  · rfl
  · have h1 : runShared 8 39 [exEnvEmpty] sessionInit sharedInit = sharedInit := rfl
    rw [h1]
    simp only [detection_status, sharedInit, windowLit_eq]
    norm_num

/-- Witness for C2: a run of one successful frame whose bottle
detection is recorded at time 10; the amended status property holds
for a query at time 11. -/
theorem c2_witness :
    ((([exEnvOk] : List Env).map Env.now).Sorted (· ≤ ·)) ∧
    StatusWindowProp 8 39 [exEnvOk] 11 :=
  ⟨by simp, c2_status_window 8 39 [exEnvOk] 11 (by simp)⟩

/-- C8: across any run of the loop in which the clock read is
non-decreasing, the successive values written to `bottle_last_seen`
form a non-decreasing sequence. -/
theorem c8_lastSeen_monotone (N b : Nat) (envs : List Env) (s : SessionState)
    (sh : SharedState) (hmono : (envs.map Env.now).Sorted (· ≤ ·)) :
    ((runTraces N b envs s sh).filterMap IterTrace.wrote).Sorted (· ≤ ·) :=
  List.Pairwise.sublist (writes_sublist N b envs s sh) hmono

/-- Witness for C8: a two-frame run with clock times 10 and 11, both
frames recording the bottle; the recorded write sequence is sorted. -/
theorem c8_witness :
    ((([exEnvOk, ⟨true, some [exDet], true, [4], 11⟩] : List Env).map
        Env.now).Sorted (· ≤ ·)) ∧
    ((runTraces 8 39 [exEnvOk, ⟨true, some [exDet], true, [4], 11⟩]
        sessionInit sharedInit).filterMap IterTrace.wrote).Sorted (· ≤ ·) :=
  ⟨by simp; decide, c8_lastSeen_monotone 8 39 _ sessionInit sharedInit
    (by simp; decide)⟩

/-- C9: the status query is side-effect-free and idempotent — it
returns the whole server state (recency timestamp, every session's
frame counter and cached detections) unchanged, and two queries at the
same time against the same stored timestamp answer alike. -/
theorem c9_status_pure (now : ℚ) (st st2 : ServerState)
    (h : st2.shared.bottle_last_seen = st.shared.bottle_last_seen) :
    (statusRoute now st).2 = st ∧
    (statusRoute now st2).1 = (statusRoute now st).1 := by
  constructor
  · rfl
  · simp only [statusRoute, detection_status, h]

/-- Witness for C9: querying at time 7 a server whose timestamp is 5
and one session running leaves the state intact; a second state with
the same timestamp answers alike. -/
theorem c9_witness :
    ((⟨⟨5⟩, []⟩ : ServerState).shared.bottle_last_seen =
      (⟨⟨5⟩, [⟨3, some [exDet]⟩]⟩ : ServerState).shared.bottle_last_seen) ∧
    ((statusRoute 7 ⟨⟨5⟩, [⟨3, some [exDet]⟩]⟩).2 = ⟨⟨5⟩, [⟨3, some [exDet]⟩]⟩ ∧
     (statusRoute 7 ⟨⟨5⟩, []⟩).1 = (statusRoute 7 ⟨⟨5⟩, [⟨3, some [exDet]⟩]⟩).1) :=
  ⟨rfl, c9_status_pure 7 ⟨⟨5⟩, [⟨3, some [exDet]⟩]⟩ ⟨⟨5⟩, []⟩ rfl⟩

theorem stepIter_chunk_cases (N b : Nat) (e : Env) (s : SessionState)
    (sh : SharedState) :
    (stepIter N b e s sh).chunk = none ∨
    ∃ jpg, (stepIter N b e s sh).chunk = some (mkChunk jpg) := by
  by_cases hc : e.captureOk = true
  · by_cases hm : s.frame_count % N = 0
    · cases hr : e.inferResult with
      | none => left; rw [stepIter_infer_fail hc hm hr]
      | some r =>
        rw [stepIter_infer_ok hc hm hr]
        by_cases he : e.encodeOk = true
        · right; exact ⟨e.jpeg, by simp [afterInfer, he]⟩
        · left; simp [afterInfer, he]
    · rw [stepIter_no_infer hc hm]
      by_cases he : e.encodeOk = true
      · right; exact ⟨e.jpeg, by simp [afterInfer, he]⟩
      · left; simp [afterInfer, he]
  · left; rw [stepIter_capture_fail (by simpa using hc)]

theorem runTraces_chunk_shape (N b : Nat) (envs : List Env) :
    ∀ (s : SessionState) (sh : SharedState),
      ∀ t ∈ runTraces N b envs s sh,
        t.chunk = none ∨ ∃ jpg, t.chunk = some (mkChunk jpg) := by
  induction envs with
  | nil => intro s sh t ht; simp [runTraces] at ht
  | cons e es ih =>
    intro s sh t ht
    simp only [runTraces, List.mem_cons] at ht
    rcases ht with rfl | ht
    · exact stepIter_chunk_cases N b e s sh
    · exact ih _ _ t ht

/-- C4: every chunk the generator yields is exactly the boundary line,
the JPEG content-type header, a blank line, the encoder's JPEG bytes
and a trailing CRLF; the terminating multipart boundary is never
yielded. -/
theorem c4_chunk_format (N b : Nat) (envs : List Env) (s : SessionState)
    (sh : SharedState) :
    ∀ c ∈ (runTraces N b envs s sh).filterMap IterTrace.chunk, ChunkShape c := by
  intro c hc
  rw [List.mem_filterMap] at hc
  obtain ⟨t, htmem, htc⟩ := hc
  rcases runTraces_chunk_shape N b envs s sh t htmem with h | ⟨jpg, h⟩
  · rw [h] at htc; cases htc
  · rw [h] at htc
    have hcj : c = mkChunk jpg := by
      injection htc with h2
      exact h2.symm
    constructor
    · exact ⟨jpg, hcj⟩
    · intro hterm
      have hlen := congrArg List.length (hcj ▸ hterm)
      have h37 : (strBytes ("--frame\r\nContent-Type: image/jpeg\r\n\r\n")).length
          = 37 := rfl
      have h11 : (strBytes ("--frame--\r\n")).length = 11 := rfl
      have h2 : (strBytes ("\r\n")).length = 2 := rfl
      rw [mkChunk, List.length_append, List.length_append, h37, h2, h11] at hlen
      omega

/-- Witness for C4: the chunk yielded by one fully successful frame
has the required multipart shape. -/
theorem c4_witness :
    (mkChunk [1, 2, 3] ∈ (runTraces 8 39 [exEnvOk] sessionInit
      sharedInit).filterMap IterTrace.chunk) ∧
    ChunkShape (mkChunk [1, 2, 3]) :=
  ⟨by decide, c4_chunk_format 8 39 [exEnvOk] sessionInit sharedInit
    (mkChunk [1, 2, 3]) (by decide)⟩

/-- C3 (amended): an iteration whose inference call raises drops that
frame entirely — the exception handler yields no chunk and the frame
is never rendered — while the session itself survives: both states are
left untouched, so the very next successful iteration emits its chunk
and re-invokes inference at the same cadence position.  (The original
claim, that the failing frame is still rendered from the cache and a
chunk is emitted for it, is refuted by the counterexample.) -/
theorem c3_infer_fail_continue (N b : Nat) (e e2 : Env) (s : SessionState)
    (sh : SharedState) (hc : e.captureOk = true)
    (hm : s.frame_count % N = 0) (hr : e.inferResult = none)
    (h2 : envOk e2 = true) :
    InferFailContinueProp N b e e2 s sh := by
  refine ⟨stepIter_infer_fail hc hm hr, stepIter_ok_chunk h2, ?_⟩
  obtain ⟨hc2, ⟨r2, hr2⟩, -⟩ := envOk_parts h2
  rw [stepIter_infer_ok hc2 hm hr2]
  rfl

/-- Counterexample to C3 as stated: a session holding a cached result
meets an inference failure at its cadence frame; contrary to the
claim, the iteration emits no chunk and never reaches the drawing
stage. -/
theorem c3_counterexample :
    (stepIter 8 39 exEnvInferFail ⟨0, some [exDet]⟩ sharedInit).chunk = none ∧
    (stepIter 8 39 exEnvInferFail ⟨0, some [exDet]⟩ sharedInit).renderedWith
      = none :=
  ⟨rfl, rfl⟩

/-- Witness for C3 (amended), at a fresh cadence frame holding a
cached result, followed by a fully successful iteration. -/
theorem c3_witness :
    (exEnvInferFail.captureOk = true ∧
      (⟨0, some [exDet]⟩ : SessionState).frame_count % 8 = 0 ∧
      exEnvInferFail.inferResult = none ∧ envOk exEnvOk = true) ∧
    InferFailContinueProp 8 39 exEnvInferFail exEnvOk ⟨0, some [exDet]⟩
      sharedInit :=
  ⟨⟨rfl, rfl, rfl, rfl⟩,
    c3_infer_fail_continue 8 39 exEnvInferFail exEnvOk ⟨0, some [exDet]⟩
      sharedInit rfl rfl rfl rfl⟩

/-- C6: a capture failure never ends the session or the process — the
iteration is caught, sleeps the fixed 0.5 s backoff, changes nothing,
and the next successful capture emits its chunk as usual. -/
theorem c6_capture_fail_continue (N b : Nat) (e e2 : Env) (s : SessionState)
    (sh : SharedState) (hc : e.captureOk = false) (h2 : envOk e2 = true) :
    CaptureFailContinueProp N b e e2 s sh :=
  ⟨stepIter_capture_fail hc, stepIter_ok_chunk h2⟩

/-- Witness for C6: a capture failure mid-session followed by a fully
successful iteration. -/
theorem c6_witness :
    (exEnvCaptureFail.captureOk = false ∧ envOk exEnvOk = true) ∧
    CaptureFailContinueProp 8 39 exEnvCaptureFail exEnvOk ⟨5, some [exDet]⟩
      sharedInit :=
  ⟨⟨rfl, rfl⟩,
    c6_capture_fail_continue 8 39 exEnvCaptureFail exEnvOk ⟨5, some [exDet]⟩
      sharedInit rfl rfl⟩

theorem any_qualifies_iff (b : Nat) (l : List Detection) :
    l.any (qualifies b) = true ↔ ∃ d ∈ l, d.cls = b ∧ mkRat 1 2 ≤ d.conf := by
  rw [List.any_eq_true]
  constructor
  · rintro ⟨d, hd, hdq⟩
    refine ⟨d, hd, ?_⟩
    simpa [qualifies] using hdq
  · rintro ⟨d, hd, h1, h2⟩
    exact ⟨d, hd, by simp [qualifies, h1, h2]⟩

/-- C7: an iteration that reaches the drawing stage updates
`bottle_last_seen` to the current clock exactly when the drawn list
holds a detection whose class is the watched one with confidence at
least 0.5; when it holds none, the shared state is untouched. -/
theorem c7_write_iff (N b : Nat) (e : Env) (s : SessionState)
    (sh : SharedState) (hc : e.captureOk = true)
    (hi : s.frame_count % N = 0 → e.inferResult.isSome = true) :
    WriteIffProp N b e s sh := by
  have key : ∀ (cache : Option DetectionResult) (ic : Bool),
      stepIter N b e s sh = afterInfer b e s cache sh ic →
      WriteIffProp N b e s sh := by
    intro cache ic hstep
    refine ⟨cache, by rw [hstep]; rfl, ?_, ?_⟩
    · intro hq
      have hb : (cache.getD []).any (qualifies b) = true :=
        (any_qualifies_iff b _).2 hq
      rw [hstep]
      constructor <;> simp [afterInfer, hb]
    · intro hq
      have hb : (cache.getD []).any (qualifies b) = false := by
        rw [Bool.eq_false_iff]
        intro hcon
        exact hq ((any_qualifies_iff b _).1 hcon)
      rw [hstep]
      constructor <;> simp [afterInfer, hb]
  by_cases hm : s.frame_count % N = 0
  · obtain ⟨r, hr⟩ := Option.isSome_iff_exists.1 (hi hm)
    exact key (some r) true (stepIter_infer_ok hc hm hr)
  · exact key s.last_results false (stepIter_no_infer hc hm)

/-- Witness for C7: a successful cadence frame of a fresh session
whose result holds one bottle at confidence 0.87. -/
theorem c7_witness :
    (exEnvOk.captureOk = true ∧
      (sessionInit.frame_count % 8 = 0 → exEnvOk.inferResult.isSome = true)) ∧
    WriteIffProp 8 39 exEnvOk sessionInit sharedInit :=
  ⟨⟨rfl, fun _ => rfl⟩,
    c7_write_iff 8 39 exEnvOk sessionInit sharedInit rfl (fun _ => rfl)⟩

/-- C10 (amended): an iteration failing at capture or at inference
yields nothing and leaves counter, cache and shared state exactly as
they were — in particular a failed cadence frame is re-attempted by
the very next iteration — while an iteration failing at encoding
yields nothing but keeps the counter increment (and cache
replacement) already performed earlier in the body.  (The original
claim, that every failing iteration leaves counter and cache
untouched, is refuted by the counterexample.) -/
theorem c10_error_cases (N b : Nat) (e : Env) (s : SessionState)
    (sh : SharedState) : ErrorCasesProp N b e s sh := by
  refine ⟨?_, ?_, ?_⟩
  · intro hc
    exact stepIter_capture_fail hc
  · intro hc hm hr
    refine ⟨stepIter_infer_fail hc hm hr, ?_⟩
    intro e2 h2
    obtain ⟨hc2, ⟨r2, hr2⟩, -⟩ := envOk_parts h2
    rw [stepIter_infer_ok hc2 hm hr2]
    rfl
  · intro hc henc
    constructor
    · by_cases hm : s.frame_count % N = 0
      · cases hr : e.inferResult with
        | none => rw [stepIter_infer_fail hc hm hr]
        | some r =>
          rw [stepIter_infer_ok hc hm hr]
          simp [afterInfer, henc]
      · rw [stepIter_no_infer hc hm]
        simp [afterInfer, henc]
    · intro hi
      refine ⟨?_, ?_, ?_⟩
      · by_cases hm : s.frame_count % N = 0
        · obtain ⟨r, hr⟩ := Option.isSome_iff_exists.1 (hi hm)
          rw [stepIter_infer_ok hc hm hr]
          rfl
        · rw [stepIter_no_infer hc hm]
          rfl
      · intro r hm hr
        rw [stepIter_infer_ok hc hm hr]
        rfl
      · intro hm
        rw [stepIter_no_infer hc hm]
        rfl

/-- Counterexample to C10 as stated: at a cadence boundary (counter 8)
the inference succeeds and replaces the cache, the counter is
incremented, and only then does JPEG encoding fail; the iteration
indeed emits no chunk, but the session state is not the one it began
with. -/
theorem c10_counterexample :
    (stepIter 8 39 exEnvEncodeFail ⟨8, some [exDet]⟩ sharedInit).chunk = none ∧
    (stepIter 8 39 exEnvEncodeFail ⟨8, some [exDet]⟩ sharedInit).sess ≠
      ⟨8, some [exDet]⟩ := by
  constructor
  · rfl
  · intro h
    have h2 := congrArg SessionState.frame_count h
    exact absurd h2 (by decide)

/-- Witness for C10: the three error cases at concrete inputs — the
capture-failure case instantiated with its untouched trace, and the
encode-failure case at a cadence boundary showing that the freshly
replaced cache persists even though no chunk was emitted. -/
theorem c10_witness :
    ErrorCasesProp 8 39 exEnvCaptureFail ⟨5, some [exDet]⟩ sharedInit ∧
    stepIter 8 39 exEnvCaptureFail ⟨5, some [exDet]⟩ sharedInit =
      ⟨⟨5, some [exDet]⟩, ⟨5, some [exDet]⟩, sharedInit, false, none, none,
        none, mkRat 1 2⟩ ∧
    (stepIter 8 39 exEnvEncodeFail ⟨8, some [exDet]⟩ sharedInit).sess.last_results
      = some [exOther] :=
  ⟨c10_error_cases 8 39 exEnvCaptureFail ⟨5, some [exDet]⟩ sharedInit,
    (c10_error_cases 8 39 exEnvCaptureFail ⟨5, some [exDet]⟩ sharedInit).1 rfl,
    ((((c10_error_cases 8 39 exEnvEncodeFail ⟨8, some [exDet]⟩
        sharedInit).2.2 rfl rfl).2 (fun _ => rfl)).2.1) [exOther] rfl rfl⟩

theorem renderDetections_ops (names : Nat → Option String) :
    ∀ (dets : DetectionResult) (op : DrawOp), op ∈ renderDetections names dets →
      (∃ d ∈ dets, op = DrawOp.rect d.x1 d.y1 d.x2 d.y2 (0, 255, 0) 2) ∨
      (∃ d ∈ dets,
        op = DrawOp.text (d.x1 + 2) (d.y1 + 2) (labelOf names d) (0, 255, 0)) := by
  intro dets
  induction dets with
  | nil => intro op hop; simp [renderDetections] at hop
  | cons d ds ih =>
    intro op hop
    simp only [renderDetections, List.mem_cons] at hop
    rcases hop with rfl | rfl | hop
    · left; exact ⟨d, List.mem_cons_self d ds, rfl⟩
    · right; exact ⟨d, List.mem_cons_self d ds, rfl⟩
    · rcases ih op hop with ⟨d2, hd2, rfl⟩ | ⟨d2, hd2, rfl⟩
      · left; exact ⟨d2, List.mem_cons_of_mem d hd2, rfl⟩
      · right; exact ⟨d2, List.mem_cons_of_mem d hd2, rfl⟩

theorem renderDetections_mem (names : Nat → Option String) :
    ∀ (dets : DetectionResult) (d : Detection), d ∈ dets →
      DrawOp.rect d.x1 d.y1 d.x2 d.y2 (0, 255, 0) 2 ∈
        renderDetections names dets ∧
      DrawOp.text (d.x1 + 2) (d.y1 + 2) (labelOf names d) (0, 255, 0) ∈
        renderDetections names dets := by
  intro dets
  induction dets with
  | nil => intro d hd; cases hd
  | cons x ds ih =>
    intro d hd
    rcases List.mem_cons.1 hd with rfl | hd2
    · constructor <;> simp [renderDetections]
    · obtain ⟨h1, h2⟩ := ih d hd2
      constructor
      · show _ ∈ _ :: _ :: renderDetections names ds
        exact List.mem_cons_of_mem _ (List.mem_cons_of_mem _ h1)
      · show _ ∈ _ :: _ :: renderDetections names ds
        exact List.mem_cons_of_mem _ (List.mem_cons_of_mem _ h2)

/-- C5 (amended): for every cached detection the renderer draws its
bounding box and its label text `"{name} {conf:.2f}"` at
`(x1 + 2, y1 + 2)` — just inside the box's top-left corner — and never
draws a filled label-background rectangle.  (The original claim, that
a label background is drawn in addition to the text, is refuted by the
counterexample.) -/
theorem c5_render_ops (names : Nat → Option String) (dets : DetectionResult) :
    RenderOpsProp names dets := by
  intro d hd
  obtain ⟨h1, h2⟩ := renderDetections_mem names dets d hd
  refine ⟨h1, h2, ?_⟩
  intro op hop
  rcases renderDetections_ops names dets op hop with ⟨d2, -, rfl⟩ | ⟨d2, -, rfl⟩
  · rfl
  · rfl

theorem format2dp_87 : format2dp (mkRat 87 100) = ("0.87") := by
  have hval : (mkRat 87 100 : ℚ) * 100 = 87 := by
    rw [Rat.mkRat_eq_divInt, Rat.divInt_eq_div]
    norm_num
  have h1 : roundHalfEven (mkRat 87 100 * 100) = 87 := by
    rw [roundHalfEven, hval]
    norm_num
  rw [format2dp, h1]
  rfl

/-- Counterexample to C5 as stated: for a bottle detection at
confidence 0.87 the renderer emits exactly the outline rectangle and
the label text — no label-background operation is ever drawn (the
source comments "no fancy bg to avoid errors" at line 200). -/
theorem c5_counterexample :
    renderDetections (fun _ => some ("bottle")) [exDet] =
      [DrawOp.rect 10 20 110 220 (0, 255, 0) 2,
       DrawOp.text 12 22 ("bottle 0.87") (0, 255, 0)] ∧
    ¬ ∃ op ∈ renderDetections (fun _ => some ("bottle")) [exDet],
        op.isFillRect = true := by
  constructor
  · have hlab : labelOf (fun _ => some ("bottle")) exDet = ("bottle 0.87") := by
      rw [labelOf]
      have hconf : exDet.conf = mkRat 87 100 := rfl
      rw [hconf, format2dp_87]
      rfl
    simp only [renderDetections, hlab]
    rfl
  · rintro ⟨op, hop, hfr⟩
    rcases renderDetections_ops (fun _ => some ("bottle")) [exDet] op hop with
      ⟨d2, -, rfl⟩ | ⟨d2, -, rfl⟩
    · exact absurd hfr (by simp [DrawOp.isFillRect])
    · exact absurd hfr (by simp [DrawOp.isFillRect])

/-- Witness for C5 (amended): the render property at a single bottle
detection. -/
theorem c5_witness :
    (exDet ∈ [exDet]) ∧ RenderOpsProp (fun _ => some ("bottle")) [exDet] :=
  ⟨List.mem_singleton_self exDet,
    c5_render_ops (fun _ => some ("bottle")) [exDet]⟩

end PiPlay
